import Mathlib

/-!
Verification of the GROTA LUMENA Builder orchestrator core against its
natural-language specification.

The development shallowly embeds the relevant Python modules:
* `BUILDER/core/task_manager.py` — `Task`, `TaskManager` (persistence is
  modelled as an explicit list of filesystem operations `FsOp`);
* `BUILDER/api/routes/tasks.py` — the status-guarded route handlers
  (`dispatch`, `retry`, `cancel`);
* `BUILDER/core/agent_registry.py` — `AgentRegistry.scan_agents`;
* `BUILDER/core/dispatcher.py` — keyword classification and confidence;
* `BUILDER/core/debate_engine.py` — the vote-parsing step of the voting round;
* `BUILDER/api/app.py` — the inbox watcher callback `_on_inbox_file`.

Python dictionaries keyed by task id are modelled as insertion-ordered
lists (`List Task`); `dict.values()` iteration order is the list order.
Calls into external libraries (the `re` regex engine where the pattern set
is data, `json.loads`) are modelled as explicit function parameters or
`Option`-valued inputs, as noted at each definition.
-/

namespace Builder

/-- Mirror of `Task` from `BUILDER/core/task_manager.py` (`Task.__init__` /
`to_dict`): all persisted fields.  Timestamps are ISO-8601 strings as in the
source; `id` generation (`uuid.uuid4().hex[:12]`) and `datetime.now()` are
external inputs, so constructors take them as arguments. -/
structure Task where
  id : String
  title : String
  description : String
  status : String
  priority : String
  assigned_to : Option String
  created_at : String
  updated_at : String
  result : Option String
  error : Option String
  task_type : Option String
  depends_on : List String
deriving DecidableEq, Repr

/-- Mirror of `Task.touch`: set `updated_at` to the current time. -/
def Task.touch (t : Task) (now : String) : Task := { t with updated_at := now }

/-- A single filesystem effect.  `TaskManager._save` and the route handlers
are modelled as returning the list of filesystem operations they perform. -/
inductive FsOp where
  | write (path content : String)
  | flush (path : String)
  | rename (src dst : String)
deriving DecidableEq, Repr

/-- Model of the serialized JSON document `json.dumps([t.to_dict() ...])`
written by `_save`: a rendering of every persisted field of one task.  The
exact JSON syntax is external (the `json` library); the claims only depend
on the write pattern, not on the encoding. -/
def serializeTask (t : Task) : String :=
  t.id ++ "|" ++ t.title ++ "|" ++ t.description ++ "|" ++ t.status ++ "|" ++
  t.priority ++ "|" ++ t.assigned_to.getD "null" ++ "|" ++ t.created_at ++ "|" ++
  t.updated_at ++ "|" ++ t.result.getD "null" ++ "|" ++ t.error.getD "null" ++
  "|" ++ t.task_type.getD "null" ++ "|" ++ String.intercalate "," t.depends_on

/-- Serialization of the whole task table, in `dict.values()` order. -/
def serializeTasks (ts : List Task) : String :=
  String.intercalate ";" (ts.map serializeTask)

/-- Mirror of the `TaskManager` instance state: the backing file path
(`self._file`) and the task table (`self._tasks`, an insertion-ordered dict
modelled as a list). -/
structure TaskManager where
  file : String
  tasks : List Task
deriving DecidableEq, Repr

/-- Mirror of `TaskManager._save` (task_manager.py:91-95): a single direct
`self._file.write_text(json.dumps(...))` of the serialized table. -/
def TaskManager.saveOps (tm : TaskManager) : List FsOp :=
  [FsOp.write tm.file (serializeTasks tm.tasks)]

/-- Mirror of `TaskManager.get` / `self._tasks.get(task_id)`: lookup by id. -/
def TaskManager.get (tm : TaskManager) (task_id : String) : Option Task :=
  tm.tasks.find? (fun t => t.id == task_id)

/-- In-place mutation of the dict entry for `task_id`: every stored task
with that id is replaced, order preserved. -/
def replaceTask (ts : List Task) (task_id : String) (t2 : Task) : List Task :=
  ts.map (fun u => if u.id == task_id then t2 else u)

/-- Mirror of `TaskManager.create` (task_manager.py:97-102): fresh task with
status=pending, inserted at the end of the table, then `_save`. -/
def TaskManager.create (tm : TaskManager)
    (title description priority id now : String) :
    Task × TaskManager × List FsOp :=
  let task : Task :=
    { id := id, title := title, description := description,
      status := "pending", priority := priority, assigned_to := none,
      created_at := now, updated_at := now, result := none, error := none,
      task_type := none, depends_on := [] }
  let tm' : TaskManager := { tm with tasks := tm.tasks ++ [task] }
  (task, tm', tm'.saveOps)

/-- Mirror of `TaskManager.assign` (task_manager.py:128-137): missing id → `None`,
no mutation, no save; otherwise set `assigned_to`, status="assigned",
touch, save. -/
def TaskManager.assign (tm : TaskManager) (task_id agent_name now : String) :
    Option Task × TaskManager × List FsOp :=
  match tm.get task_id with
  | none => (none, tm, [])
  | some task =>
    let t2 := { task with assigned_to := some agent_name,
                          status := "assigned", updated_at := now }
    let tm' := { tm with tasks := replaceTask tm.tasks task_id t2 }
    (some t2, tm', tm'.saveOps)

/-- Mirror of `TaskManager.update_status` (task_manager.py:139-146): unconditional
direct status write ("caller is responsible for validity"). -/
def TaskManager.update_status (tm : TaskManager) (task_id status now : String) :
    Option Task × TaskManager × List FsOp :=
  match tm.get task_id with
  | none => (none, tm, [])
  | some task =>
    let t2 := { task with status := status, updated_at := now }
    let tm' := { tm with tasks := replaceTask tm.tasks task_id t2 }
    (some t2, tm', tm'.saveOps)

/-- Mirror of `TaskManager.complete` (task_manager.py:148-157): status="done",
stores the result. -/
def TaskManager.complete (tm : TaskManager) (task_id result now : String) :
    Option Task × TaskManager × List FsOp :=
  match tm.get task_id with
  | none => (none, tm, [])
  | some task =>
    let t2 := { task with status := "done", result := some result,
                          updated_at := now }
    let tm' := { tm with tasks := replaceTask tm.tasks task_id t2 }
    (some t2, tm', tm'.saveOps)

/-- Mirror of `TaskManager.fail` (task_manager.py:159-168): status="failed",
stores the error. -/
def TaskManager.fail (tm : TaskManager) (task_id error now : String) :
    Option Task × TaskManager × List FsOp :=
  match tm.get task_id with
  | none => (none, tm, [])
  | some task =>
    let t2 := { task with status := "failed", error := some error,
                          updated_at := now }
    let tm' := { tm with tasks := replaceTask tm.tasks task_id t2 }
    (some t2, tm', tm'.saveOps)

/-- The keyword arguments accepted by `TaskManager.update` through the API's
`TaskUpdate` schema (api/models.py:26-33): each field optional; `None`
values are ignored by `update`. -/
structure TaskUpdatePatch where
  title : Option String
  description : Option String
  priority : Option String
  status : Option String
  assigned_to : Option String
  result : Option String
  error : Option String
deriving DecidableEq, Repr

/-- Field-wise application of `setattr(task, key, value)` for every patch
entry that is not `None` (task_manager.py:174-176). -/
def applyPatch (t : Task) (p : TaskUpdatePatch) : Task :=
  { t with
    title := p.title.getD t.title,
    description := p.description.getD t.description,
    priority := p.priority.getD t.priority,
    status := p.status.getD t.status,
    assigned_to := match p.assigned_to with
      | none => t.assigned_to
      | some v => some v,
    result := match p.result with
      | none => t.result
      | some v => some v,
    error := match p.error with
      | none => t.error
      | some v => some v }

/-- Mirror of `TaskManager.update` (task_manager.py:170-179): missing id → `None`,
no mutation, no save; otherwise apply the patch, touch, save. -/
def TaskManager.update (tm : TaskManager) (task_id : String)
    (p : TaskUpdatePatch) (now : String) :
    Option Task × TaskManager × List FsOp :=
  match tm.get task_id with
  | none => (none, tm, [])
  | some task =>
    let t2 := (applyPatch task p).touch now
    let tm' := { tm with tasks := replaceTask tm.tasks task_id t2 }
    (some t2, tm', tm'.saveOps)

/-- Mirror of `TaskManager.add_dependency` (task_manager.py:181-192): both tasks must
exist; the dependency is appended when not already present.  The source
performs no cycle check of any kind. -/
def TaskManager.add_dependency (tm : TaskManager)
    (task_id depends_on_id now : String) :
    Bool × TaskManager × List FsOp :=
  match tm.get task_id, tm.get depends_on_id with
  | some task, some _ =>
    if depends_on_id ∈ task.depends_on then (true, tm, [])
    else
      let t2 := { task with depends_on := task.depends_on ++ [depends_on_id],
                            updated_at := now }
      let tm' := { tm with tasks := replaceTask tm.tasks task_id t2 }
      (true, tm', tm'.saveOps)
  | _, _ => (false, tm, [])

/-- Mirror of `TaskManager.is_ready` (task_manager.py:194-203): true iff the task
exists and every dependency resolves to an existing task in status done. -/
def TaskManager.is_ready (tm : TaskManager) (task_id : String) : Bool :=
  match tm.get task_id with
  | none => false
  | some task =>
    task.depends_on.all (fun dep_id =>
      match tm.get dep_id with
      | none => false
      | some dep => dep.status == "done")

/-- Mirror of `PRIORITY_ORDER.get(p, 99)` (task_manager.py:17): the sort rank of a
priority string, unknown values ranking last. -/
def priorityGet (p : String) : Nat :=
  if p == "critical" then 0
  else if p == "high" then 1
  else if p == "medium" then 2
  else if p == "low" then 3
  else 99

/-- The sort key relation used by `pending_queue`: Python's stable `sorted`
with key `(PRIORITY_ORDER.get(t.priority, 99), t.created_at)`. -/
def taskKeyLE (a b : Task) : Prop :=
  priorityGet a.priority < priorityGet b.priority ∨
    (priorityGet a.priority = priorityGet b.priority ∧
      a.created_at ≤ b.created_at)

instance : DecidableRel taskKeyLE := fun a b => by
  unfold taskKeyLE; infer_instance

instance : IsTotal Task taskKeyLE := by
  constructor
  intro a b
  rcases Nat.lt_trichotomy (priorityGet a.priority) (priorityGet b.priority)
    with h | h | h
  · exact Or.inl (Or.inl h)
  · rcases le_total a.created_at b.created_at with hc | hc
    · exact Or.inl (Or.inr ⟨h, hc⟩)
    · exact Or.inr (Or.inr ⟨h.symm, hc⟩)
  · exact Or.inr (Or.inl h)

instance : IsTrans Task taskKeyLE := by
  constructor
  intro a b c hab hbc
  rcases hab with h1 | ⟨e1, c1⟩
  · rcases hbc with h2 | ⟨e2, _⟩
    · exact Or.inl (h1.trans h2)
    · exact Or.inl (e2 ▸ h1)
  · rcases hbc with h2 | ⟨e2, c2⟩
    · exact Or.inl (e1 ▸ h2)
    · exact Or.inr ⟨e1.trans e2, c1.trans c2⟩

/-- Mirror of `TaskManager.pending_queue` (task_manager.py:117-121): pending tasks
whose dependencies are all satisfied, stably sorted by
`(priority rank, created_at)`. -/
def TaskManager.pending_queue (tm : TaskManager) : List Task :=
  (tm.tasks.filter (fun t => t.status == "pending" && tm.is_ready t.id)).insertionSort
    taskKeyLE

/-- The relation behind `tasks.list(...)`'s default sort
`sorted(key=created_at, reverse=True)`: created_at descending, stable. -/
def createdDescLE (a b : Task) : Prop := b.created_at ≤ a.created_at

instance : DecidableRel createdDescLE := fun a b => by
  unfold createdDescLE; infer_instance

/-- Mirror of `TaskManager.list(status=...)` (task_manager.py:107-115) with a status
filter and no `sort_by`: filter then sort by created_at descending. -/
def TaskManager.list_status (tm : TaskManager) (status : String) : List Task :=
  (tm.tasks.filter (fun t => t.status == status)).insertionSort createdDescLE

/-- POST `/tasks/{id}/dispatch` (api/routes/tasks.py:69-104), modelled up to
and including the `tasks.assign` call: 404 when the task is missing, 400
when its status is `running` or `done` (a *failed* task passes this guard),
otherwise the task is assigned to the routed agent.  The agent chosen by the
dispatcher and the subsequent bridge execution are outside this step. -/
def dispatch_route (tm : TaskManager) (task_id agent now : String) :
    Except String (TaskManager × List FsOp) :=
  match tm.get task_id with
  | none => .error "Task not found"
  | some task =>
    if task.status == "running" || task.status == "done" then
      .error ("Task already " ++ task.status)
    else
      let r := tm.assign task_id agent now
      .ok (r.2.1, r.2.2)

/-- POST `/tasks/{id}/retry` (api/routes/tasks.py:221-240), the reset step:
only `failed`/`done` tasks may be retried; the task is reset to `pending`
with `result`, `error`, `assigned_to` and `task_type` cleared, touched and
saved.  (The handler then re-dispatches, which is `dispatch_route`.) -/
def retry_route_reset (tm : TaskManager) (task_id now : String) :
    Except String (TaskManager × List FsOp) :=
  match tm.get task_id with
  | none => .error "Task not found"
  | some task =>
    if task.status == "failed" || task.status == "done" then
      let t2 := { task with status := "pending", result := none,
                            error := none, assigned_to := none,
                            task_type := none, updated_at := now }
      let tm' := { tm with tasks := replaceTask tm.tasks task_id t2 }
      .ok (tm', tm'.saveOps)
    else
      .error ("Can only retry failed/done tasks, current: " ++ task.status)

/-- POST `/tasks/{id}/cancel` (api/routes/tasks.py:249-262): rejects tasks
already `done` or `failed`; otherwise fails the task with
"Cancelled by user". -/
def cancel_route (tm : TaskManager) (task_id now : String) :
    Except String (TaskManager × List FsOp) :=
  match tm.get task_id with
  | none => .error "Task not found"
  | some task =>
    if task.status == "done" || task.status == "failed" then
      .error ("Task already " ++ task.status)
    else
      let r := tm.fail task_id "Cancelled by user" now
      .ok (r.2.1, r.2.2)

/-! ## Agent registry (`BUILDER/core/agent_registry.py`) -/

/-- String helpers used to embed the pure-Python string operations of
`AgentRegistry._extract_role`. `hasStart cs pat` is `cs` starting with
`pat`; `hasSub` is substring containment (`pat in line`). -/
def hasStart (cs pat : List Char) : Bool := cs.take pat.length == pat

def hasSub : List Char → List Char → Bool
  | [], pat => pat.isEmpty
  | c :: rest, pat => hasStart (c :: rest) pat || hasSub rest pat

def strContains (s pat : String) : Bool := hasSub s.toList pat.toList

/-- Python `str.strip(chars)`: drop the given characters from both ends. -/
def stripChars (s : String) (bad : List Char) : String :=
  ⟨((s.toList.dropWhile (fun c => bad.contains c)).reverse.dropWhile
      (fun c => bad.contains c)).reverse⟩

/-- The whitespace set of Python's argument-less `str.strip()`. -/
def pyWhitespace : List Char := [' ', '\t', '\n', '\r', '\x0b', '\x0c']

/-- The keyword list of `_extract_role` (agent_registry.py:140). -/
def ROLE_KEYWORDS : List String :=
  ["the ", "architect", "engineer", "builder", "source", "mirror"]

/-- Mirror of `AgentRegistry._extract_role` (agent_registry.py:136-142): the first of
the first five lines that contains "##" and a role keyword
(case-insensitive), stripped of leading/trailing "#"/" " then whitespace;
otherwise "agent". -/
def extract_role (text : String) : String :=
  let lines := (stripChars text pyWhitespace).splitOn "\n"
  match (lines.take 5).find? (fun line =>
      strContains line "##" &&
      ROLE_KEYWORDS.any (fun w => strContains line.toLower w)) with
  | some line => stripChars (stripChars line ['#', ' ']) pyWhitespace
  | none => "agent"

/-- Mirror of `AgentRegistry._extract_capabilities` (agent_registry.py:144-150).
The six `_CAPABILITY_PATTERNS` regexes are data fed to the external `re`
engine; each is modelled as a predicate `String → Bool` (whether
`pattern.search(text)` found a match), passed in as `caps`. -/
def extract_capabilities (caps : List (String × (String → Bool)))
    (text : String) : List String :=
  let found := caps.filterMap (fun cp => if cp.2 text then some cp.1 else none)
  if found.isEmpty then ["general"] else found

/-- Mirror of `_BRIDGE_MAP` (agent_registry.py:28-33). -/
def BRIDGE_MAP : List (String × String) :=
  [("CLAUDE_LUSTRO", "claude"), ("GEMINI_ARCHITECT", "gemini"),
   ("CODEX", "codex"), ("SHAD", "human")]

/-- Mirror of `_BRIDGE_MAP.get(name, "ollama")` (agent_registry.py:87). -/
def bridgeFor (name : String) : String :=
  match BRIDGE_MAP.find? (fun kv => kv.1 == name) with
  | some kv => kv.2
  | none => "ollama"

/-- Mirror of the `AgentInfo` dataclass (agent_registry.py:36-45);
`last_seen` is the state-log mtime rendered as a string. -/
structure AgentInfo where
  name : String
  role : String
  status : String
  capabilities : List String
  bridge_type : String
  last_seen : Option String
  current_task : Option String
  who_am_i_raw : String
deriving DecidableEq, Repr

/-- One immediate entry of the scanned `M-AI-SELF/` directory: its name,
whether it is a directory, the text of `WHO_AM_I.md` when that file
exists, and the mtime of `STATE.log` when it exists. -/
structure AgentFolder where
  name : String
  is_dir : Bool
  who_text : Option String
  state_mtime : Option String
deriving DecidableEq, Repr

/-- The `AgentInfo(...)` constructed for one folder inside `scan_agents`
(agent_registry.py:94-102): status is the literal "idle" and
`current_task` is the dataclass default `None`. -/
def mkAgentInfo (caps : List (String × (String → Bool))) (f : AgentFolder)
    (who_text : String) : AgentInfo :=
  { name := f.name, role := extract_role who_text, status := "idle",
    capabilities := extract_capabilities caps who_text,
    bridge_type := bridgeFor f.name, last_seen := f.state_mtime,
    current_task := none, who_am_i_raw := who_text }

/-- Mirror of `AgentRegistry.scan_agents` (agent_registry.py:65-106).  The method
begins with `self._agents.clear()`, so the previous map (`old_agents`) is
dropped entirely and the result is rebuilt from the folder list alone;
when the base directory does not exist the cleared (empty) map is
returned. -/
def scan_agents (caps : List (String × (String → Bool)))
    (_old_agents : List (String × AgentInfo)) (base_exists : Bool)
    (folders : List AgentFolder) : List (String × AgentInfo) :=
  if !base_exists then []
  else folders.filterMap (fun f =>
    if !f.is_dir then none
    else match f.who_text with
      | none => none
      | some txt => some (f.name, mkAgentInfo caps f txt))

/-! ## Dispatcher (`BUILDER/core/dispatcher.py`) -/

/-- Mirror of `FALLBACK_TYPE` (dispatcher.py:76). -/
def FALLBACK_TYPE : String := "code_simple"

/-- The classification text `f"{task.title} {task.description}"`
(dispatcher.py:88). -/
def scoreText (title description : String) : String :=
  title ++ " " ++ description

/-- The `scores` dict built at dispatcher.py:89-93: for each
`(task_type, pattern)` rule, in declaration order, the number of
`pattern.findall(text)` matches when positive.  Each regex is data fed to
the external `re` engine and is modelled as its match-count function
`String → Nat`. -/
def scoreList (patterns : List (String × (String → Nat)))
    (title description : String) : List (String × Nat) :=
  patterns.filterMap (fun p =>
    let n := p.2 (scoreText title description)
    if 0 < n then some (p.1, n) else none)

/-- Python's `max(scores, key=scores.get)` over an insertion-ordered dict:
the first entry attaining the maximal count (later entries replace the
current best only when strictly greater). -/
def maxByFirst : List (String × Nat) → Option (String × Nat)
  | [] => none
  | p :: rest =>
    match maxByFirst rest with
    | none => some p
    | some q => if p.2 < q.2 then some q else some p

/-- Mirror of `Dispatcher.classify` (dispatcher.py:86-108): highest-scoring type,
ties to the first-declared, `FALLBACK_TYPE` when no rule matched. -/
def classify (patterns : List (String × (String → Nat)))
    (title description : String) : String :=
  match maxByFirst (scoreList patterns title description) with
  | none => FALLBACK_TYPE
  | some q => q.1

/-- The `match_count` recomputed inside `Dispatcher.dispatch`
(dispatcher.py:241-246): scan the rules for the winning type and count its
matches; 0 when the winning type has no rule. -/
def winning_match_count (patterns : List (String × (String → Nat)))
    (title description : String) : Nat :=
  match patterns.find? (fun p => p.1 == classify patterns title description) with
  | some p => p.2 (scoreText title description)
  | none => 0

/-- The confidence computed in `Dispatcher.dispatch` (dispatcher.py:248-253),
with the float constants 0.5 / 0.7 / 1.0 modelled as rationals. -/
def dispatch_confidence (patterns : List (String × (String → Nat)))
    (title description : String) : ℚ :=
  let task_type := classify patterns title description
  let mc := winning_match_count patterns title description
  if task_type = FALLBACK_TYPE ∧ mc = 0 then 1/2
  else if 3 ≤ mc then 1
  else 7/10

/-! ## Debate engine voting round (`BUILDER/core/debate_engine.py`) -/

/-- The clamp `max(1, min(5, int(v)))` (debate_engine.py:326). -/
def clampVote (v : Int) : Int := max 1 (min 5 v)

/-- The per-agent vote map built in `DebateEngine._run_voting_round`
(debate_engine.py:317-334).  `parsed` abstracts the outcome of locating a
JSON object in the response, `json.loads`, the `.get("votes", ...)`
unwrapping and the `int(v)` conversions (all external-library calls):
`none` covers the no-brace branch, `json.JSONDecodeError` and `ValueError`
(all of which leave the vote map empty); `some vote_data` is the list of
successfully parsed `(target, score)` items.  Entries are kept only for
known agent names other than the voter, and scores are clamped to 1..5. -/
def parse_vote_map (parsed : Option (List (String × Int)))
    (agent_names : List String) (agent_name : String) : List (String × Int) :=
  match parsed with
  | none => []
  | some vote_data =>
    (vote_data.filter (fun kv =>
        agent_names.contains kv.1 && kv.1 != agent_name)).map
      (fun kv => (kv.1, clampVote kv.2))

/-! ## Inbox watcher callback (`BUILDER/api/app.py`) -/

/-- Matches `[a-f0-9]` — one character of the task-id group of the RESULT regex. -/
def isResultHexChar (c : Char) : Bool :=
  ('a' ≤ c && c ≤ 'f') || ('0' ≤ c && c ≤ '9')

/-- Matches `\w` — one character of the agent group of the RESULT regex. -/
def isWordChar (c : Char) : Bool := c.isAlpha || c.isDigit || c == '_'

/-- Mirror of `re.match(r"RESULT_([a-f0-9]+)_FROM_(\w+)\.md", name)` (app.py:51):
anchored at the start only (trailing characters are allowed after ".md").
Because no character of `[a-f0-9]` or `\w` can equal the delimiter that
must follow the group, the greedy maximal-run parse below is exactly the
backtracking regex semantics. Returns `(task_id, agent)` on a match. -/
def matchResultName (name : String) : Option (String × String) :=
  let cs := name.toList
  let p1 := "RESULT_".toList
  if hasStart cs p1 then
    let rest := cs.drop p1.length
    let hex := rest.takeWhile isResultHexChar
    let rest2 := rest.drop hex.length
    if decide (hex ≠ []) && hasStart rest2 "_FROM_".toList then
      let rest3 := rest2.drop 6
      let word := rest3.takeWhile isWordChar
      let rest4 := rest3.drop word.length
      if decide (word ≠ []) && hasStart rest4 ".md".toList then
        some (⟨hex⟩, ⟨word⟩)
      else none
    else none
  else none

/-- Mirror of `re.match(r"CODEX_RESULT_(\d{8}_\d{6})\.md", name)` (app.py:79),
as a Boolean gate (the timestamp group is unused by the handler). -/
def matchCodexName (name : String) : Bool :=
  let cs := name.toList
  let p1 := "CODEX_RESULT_".toList
  hasStart cs p1 &&
    (let rest := cs.drop p1.length
     let d1 := rest.take 8
     let rest2 := rest.drop 8
     decide (d1.length = 8) && d1.all Char.isDigit &&
       hasStart rest2 ['_'] &&
       (let d2 := (rest2.drop 1).take 6
        let rest3 := (rest2.drop 1).drop 6
        decide (d2.length = 6) && d2.all Char.isDigit &&
          hasStart rest3 ".md".toList))

/-- One WebSocket broadcast scheduled by the inbox handler
(`_schedule_broadcast("task_complete", ...)`). -/
structure BroadcastEvent where
  etype : String
  task_id : String
  agent : String
deriving DecidableEq, Repr

/-- Mirror of `_on_inbox_file` (app.py:39-95), the task-mutating part: the
RESULT_ branch completes the task only when it exists in status
"running"; the CODEX_RESULT_ branch completes the most recent running
task assigned to CODEX.  Audit logging, registry idle-marking and file
archiving touch no task state and are omitted; the broadcasts are the
returned event list. -/
def on_inbox_file (tm : TaskManager) (name content now : String) :
    TaskManager × List BroadcastEvent :=
  let step1 : TaskManager × List BroadcastEvent :=
    match matchResultName name with
    | none => (tm, [])
    | some (task_id, agent_word) =>
      match tm.get task_id with
      | none => (tm, [])
      | some task =>
        if task.status == "running" then
          let r := tm.complete task_id content now
          (r.2.1, [⟨"task_complete", task_id, agent_word.toUpper⟩])
        else (tm, [])
  let tm1 := step1.1
  if matchCodexName name then
    match (tm1.list_status "running").find?
        (fun t => t.assigned_to == some "CODEX") with
    | some t =>
      let r := tm1.complete t.id content now
      (r.2.1, step1.2 ++ [⟨"task_complete", t.id, "CODEX"⟩])
    | none => (tm1, step1.2)
  else (tm1, step1.2)

/-! ## Spec-side definition for the persistence claim -/

/-- Modelled from the spec: the atomic-write pattern the specification
prescribes for `_save` ("write to temp file in the same directory, flush,
rename over the target").  Used only to compare the source's actual write
pattern against the claim. -/
def isAtomicWriteSeq (ops : List FsOp) (target : String) : Prop :=
  ∃ tmp content, tmp ≠ target ∧
    ops = [FsOp.write tmp content, FsOp.flush tmp, FsOp.rename tmp target]

/-! ## Concrete states used by counterexamples and witnesses -/

/-- A fresh pending task, id "a". -/
def taskA : Task :=
  { id := "a", title := "A", description := "first", status := "pending",
    priority := "medium", assigned_to := none,
    created_at := "2025-01-01T00:00:00", updated_at := "2025-01-01T00:00:00",
    result := none, error := none, task_type := none, depends_on := [] }

/-- A fresh pending task, id "b". -/
def taskB : Task :=
  { taskA with
    id := "b", title := "B", description := "second",
    created_at := "2025-01-01T00:01:00", updated_at := "2025-01-01T00:01:00" }

/-- A table holding exactly `taskA` and `taskB`. -/
def tmAB : TaskManager :=
  { file := "DATABASE/builder_tasks.json", tasks := [taskA, taskB] }

/-- An empty task table. -/
def tmEmpty : TaskManager :=
  { file := "DATABASE/builder_tasks.json", tasks := [] }

/-- A failed (cancelled) task, id "f1". -/
def taskF : Task :=
  { taskA with
    id := "f1", title := "F", status := "failed",
    error := some "Cancelled by user", assigned_to := some "GEMINI_ARCHITECT",
    task_type := some "architecture" }

/-- A table holding exactly the failed task. -/
def tmF : TaskManager :=
  { file := "DATABASE/builder_tasks.json", tasks := [taskF] }

/-- A done task, id "d1". -/
def taskD : Task :=
  { taskA with
    id := "d1", title := "D", status := "done",
    result := some "ok", assigned_to := some "OLLAMA_WORKER",
    task_type := some "code_simple" }

/-- A table holding exactly the done task. -/
def tmD : TaskManager :=
  { file := "DATABASE/builder_tasks.json", tasks := [taskD] }

/-- The all-`none` update patch. -/
def patch0 : TaskUpdatePatch :=
  { title := none, description := none, priority := none, status := none,
    assigned_to := none, result := none, error := none }

/-- A pending task that depends on the done task "d1". -/
def taskP1 : Task :=
  { taskA with
    id := "p1", title := "P1", depends_on := ["d1"],
    created_at := "2025-01-01T00:02:00" }

/-- A pending task that depends on a missing task id. -/
def taskP2 : Task :=
  { taskA with
    id := "p2", title := "P2", depends_on := ["zz"],
    created_at := "2025-01-01T00:03:00" }

/-- A table mixing a done task, a ready pending task and a blocked one. -/
def tmQ : TaskManager :=
  { file := "DATABASE/builder_tasks.json", tasks := [taskD, taskP1, taskP2] }

/-- A `WHO_AM_I.md` body for the concrete registry examples. -/
def whoX : String := "# X\n## The Builder\ncode and review"

/-- A scanned folder holding that descriptor. -/
def folderX : AgentFolder :=
  { name := "X", is_dir := true, who_text := some whoX,
    state_mtime := some "2025-01-01T00:00:00" }

/-- Two concrete capability predicates standing for the regex searches. -/
def capsEx : List (String × (String → Bool)) :=
  [("code", fun s => strContains s.toLower "code"),
   ("review", fun s => strContains s.toLower "review")]

/-- An agent entry carrying live state (active, holding a task), as the
registry map may contain it just before a re-scan. -/
def agentX_active : AgentInfo :=
  { name := "X", role := "The Builder", status := "active",
    capabilities := ["code"], bridge_type := "ollama",
    last_seen := some "2025-01-01T00:00:00", current_task := some "t123",
    who_am_i_raw := whoX }

/-- A single rule whose pattern matches three times on every text. -/
def patsW3 : List (String × (String → Nat)) := [("code_complex", fun _ => 3)]

/-- A single rule whose pattern matches once on every text. -/
def patsW1 : List (String × (String → Nat)) := [("review", fun _ => 1)]

/-- An empty rule list (forces the classifier fallback). -/
def patsW0 : List (String × (String → Nat)) := []

/-- A rule list with a tie between the second and third rules. -/
def patsTie : List (String × (String → Nat)) :=
  [("alpha", fun _ => 0), ("beta", fun _ => 2), ("gamma", fun _ => 2)]

/-! ### Lookup lemmas for the in-place table mutation -/

theorem find?_replaceTask_eq (ts : List Task) (i : String) (t2 : Task)
    (h2 : t2.id = i) :
    (replaceTask ts i t2).find? (fun u => u.id == i) =
      (ts.find? (fun u => u.id == i)).map (fun _ => t2) := by
  induction ts with
  | nil => rfl
  | cons u ts ih =>
    have hcons : replaceTask (u :: ts) i t2 =
        (if u.id == i then t2 else u) :: replaceTask ts i t2 := rfl
    rw [hcons]
    by_cases h : u.id = i
    · have hb : (u.id == i) = true := by simpa using h
      have ht2 : (t2.id == i) = true := by simpa using h2
      simp [List.find?_cons, hb, ht2]
    · have hb : (u.id == i) = false := by simpa using h
      simp only [hb, Bool.false_eq_true, if_false, List.find?_cons]
      exact ih

theorem find?_replaceTask_ne (ts : List Task) (i j : String) (t2 : Task)
    (h2 : t2.id = i) (hne : j ≠ i) :
    (replaceTask ts i t2).find? (fun u => u.id == j) =
      ts.find? (fun u => u.id == j) := by
  induction ts with
  | nil => rfl
  | cons u ts ih =>
    have hcons : replaceTask (u :: ts) i t2 =
        (if u.id == i then t2 else u) :: replaceTask ts i t2 := rfl
    rw [hcons]
    by_cases h : u.id = i
    · have hb : (u.id == i) = true := by simpa using h
      have h0 : (u.id == j) = false := by
        rw [h]
        simpa using Ne.symm hne
      have h1 : (t2.id == j) = false := by
        rw [h2]
        simpa using Ne.symm hne
      simp only [hb, if_true, List.find?_cons, h0, h1]
      exact ih
    · have hb : (u.id == i) = false := by simpa using h
      simp only [hb, Bool.false_eq_true, if_false, List.find?_cons]
      cases hj : (u.id == j) with
      | true => rfl
      | false => exact ih

theorem get_replace_eq (tm : TaskManager) (i : String) (t2 : Task)
    (h2 : t2.id = i) :
    TaskManager.get { tm with tasks := replaceTask tm.tasks i t2 } i =
      (tm.get i).map (fun _ => t2) :=
  find?_replaceTask_eq tm.tasks i t2 h2

theorem get_replace_ne (tm : TaskManager) (i j : String) (t2 : Task)
    (h2 : t2.id = i) (hne : j ≠ i) :
    TaskManager.get { tm with tasks := replaceTask tm.tasks i t2 } j =
      tm.get j :=
  find?_replaceTask_ne tm.tasks i j t2 h2 hne

theorem get_id_of_find? (tm : TaskManager) (i : String) (t : Task)
    (h : tm.get i = some t) : t.id = i := by
  have := List.find?_some h
  simpa using this

theorem find?_id_of_mem_nodup (l : List Task) (t : Task)
    (hmem : t ∈ l) (hnodup : (l.map Task.id).Nodup) :
    l.find? (fun u => u.id == t.id) = some t := by
  induction l with
  | nil => simp at hmem
  | cons u rest ih =>
    rcases List.mem_cons.mp hmem with h | h
    · subst h
      exact @List.find?_cons_of_pos _ (fun u => u.id == t.id) t rest (by simp)
    · have hn : u.id ∉ rest.map Task.id ∧ (rest.map Task.id).Nodup := by
        rw [List.map_cons, List.nodup_cons] at hnodup
        exact hnodup
      have hne : u.id ≠ t.id := by
        intro hc
        exact hn.1 (hc ▸ List.mem_map_of_mem Task.id h)
      rw [@List.find?_cons_of_neg _ (fun u => u.id == t.id) u rest
        (by simpa using hne)]
      exact ih h hn.2

theorem get_of_mem_nodup (tm : TaskManager) (t : Task)
    (hmem : t ∈ tm.tasks) (hnodup : (tm.tasks.map Task.id).Nodup) :
    tm.get t.id = some t :=
  find?_id_of_mem_nodup tm.tasks t hmem hnodup

theorem hasStart_head {cs : List Char} {p : Char} {ps : List Char}
    (h : hasStart cs (p :: ps) = true) : cs.head? = some p := by
  have h' : cs.take (p :: ps).length = p :: ps := by simpa [hasStart] using h
  cases cs with
  | nil => simp at h'
  | cons c rest =>
    simp [List.take] at h'
    simp [h'.1]

theorem maxByFirst_spec (l : List (String × Nat)) (hne : l ≠ []) :
    ∃ (i : ℕ) (p : String × Nat), l[i]? = some p ∧ maxByFirst l = some p ∧
      (∀ q ∈ l, q.2 ≤ p.2) ∧
      (∀ j : ℕ, j < i → ∀ q : String × Nat, l[j]? = some q → q.2 < p.2) := by
  induction l with
  | nil => exact absurd rfl hne
  | cons p rest ih =>
    by_cases hrest : rest = []
    · subst hrest
      refine ⟨0, p, by simp, rfl, ?_, ?_⟩
      · intro q hq
        have : q = p := by simpa using hq
        subst this
        exact le_rfl
      · intro j hj
        exact absurd hj (Nat.not_lt_zero j)
    · obtain ⟨i', q', hget, hmax, hbound, hstrict⟩ := ih hrest
      by_cases hlt : p.2 < q'.2
      · refine ⟨i' + 1, q', by simpa using hget, ?_, ?_, ?_⟩
        · simp only [maxByFirst, hmax]
          rw [if_pos hlt]
        · intro q hq
          rcases List.mem_cons.mp hq with h | h
          · subst h
            exact le_of_lt hlt
          · exact hbound q h
        · intro j hj q hq
          cases j with
          | zero =>
            have : p = q := by simpa using hq
            subst this
            exact hlt
          | succ j' =>
            have hq' : rest[j']? = some q := by simpa using hq
            exact hstrict j' (by omega) q hq'
      · refine ⟨0, p, by simp, ?_, ?_, fun j hj => absurd hj (Nat.not_lt_zero j)⟩
        · simp only [maxByFirst, hmax]
          rw [if_neg hlt]
        · intro q hq
          rcases List.mem_cons.mp hq with h | h
          · subst h
            exact le_rfl
          · exact le_trans (hbound q h) (Nat.le_of_not_lt hlt)

/-! ## Claim theorems -/

/-- Claim C10: For every task id absent from the table, each mutator
(`assign`, `update_status`, `complete`, `fail`, `update`) returns `None`
and leaves both the task table and the persisted file untouched: no
filesystem operation is performed. -/
theorem mutators_missing_id_noop (tm : TaskManager)
    (task_id agent_name status result error now : String) (p : TaskUpdatePatch)
    (h : tm.get task_id = none) :
    tm.assign task_id agent_name now = (none, tm, []) ∧
    tm.update_status task_id status now = (none, tm, []) ∧
    tm.complete task_id result now = (none, tm, []) ∧
    tm.fail task_id error now = (none, tm, []) ∧
    tm.update task_id p now = (none, tm, []) := by
  refine ⟨?_, ?_, ?_, ?_, ?_⟩ <;>
    simp [TaskManager.assign, TaskManager.update_status, TaskManager.complete,
      TaskManager.fail, TaskManager.update, h]

/-- Witness for C10 at a concrete empty table and unknown id. -/
theorem mutators_missing_id_noop_witness :
    tmEmpty.assign "zzz" "AGENT_X" "t0" = (none, tmEmpty, []) ∧
    tmEmpty.update_status "zzz" "running" "t0" = (none, tmEmpty, []) ∧
    tmEmpty.complete "zzz" "res" "t0" = (none, tmEmpty, []) ∧
    tmEmpty.fail "zzz" "err" "t0" = (none, tmEmpty, []) ∧
    tmEmpty.update "zzz" patch0 "t0" = (none, tmEmpty, []) :=
  mutators_missing_id_noop tmEmpty "zzz" "AGENT_X" "running" "res" "err" "t0"
    patch0 rfl

/-- Claim C2, counterexample:  The persistence step performed by a mutation
(`create` here) is not the claimed temp-file/flush/rename sequence: `_save`
issues a single direct `write_text` to the target file. -/
theorem save_not_atomic_write :
    ¬ isAtomicWriteSeq ((tmEmpty.create "T" "D" "medium" "id1" "t0").2.2)
      tmEmpty.file := by
  rintro ⟨tmp, c, -, heq⟩
  have hlen := congrArg List.length heq
  simp [TaskManager.create, TaskManager.saveOps] at hlen

/-- Claim C2, amended:  Every mutation persists the task table with a single
direct write of the serialized document over the target file (`write_text`
with no temporary file, flush or rename); mutators that find no task write
nothing. -/
theorem save_is_direct_write (tm : TaskManager)
    (title description priority id task_id agent status result error now
      dep : String) (p : TaskUpdatePatch) :
    tm.saveOps = [FsOp.write tm.file (serializeTasks tm.tasks)] ∧
    (tm.create title description priority id now).2.2 =
      (tm.create title description priority id now).2.1.saveOps ∧
    ((tm.assign task_id agent now).2.2 = [] ∨
      (tm.assign task_id agent now).2.2 =
        (tm.assign task_id agent now).2.1.saveOps) ∧
    ((tm.update_status task_id status now).2.2 = [] ∨
      (tm.update_status task_id status now).2.2 =
        (tm.update_status task_id status now).2.1.saveOps) ∧
    ((tm.complete task_id result now).2.2 = [] ∨
      (tm.complete task_id result now).2.2 =
        (tm.complete task_id result now).2.1.saveOps) ∧
    ((tm.fail task_id error now).2.2 = [] ∨
      (tm.fail task_id error now).2.2 =
        (tm.fail task_id error now).2.1.saveOps) ∧
    ((tm.update task_id p now).2.2 = [] ∨
      (tm.update task_id p now).2.2 =
        (tm.update task_id p now).2.1.saveOps) ∧
    ((tm.add_dependency task_id dep now).2.2 = [] ∨
      (tm.add_dependency task_id dep now).2.2 =
        (tm.add_dependency task_id dep now).2.1.saveOps) := by
  refine ⟨rfl, rfl, ?_, ?_, ?_, ?_, ?_, ?_⟩
  · cases hm : tm.get task_id with
    | none => exact Or.inl (by simp [TaskManager.assign, hm])
    | some t => exact Or.inr (by simp [TaskManager.assign, hm])
  · cases hm : tm.get task_id with
    | none => exact Or.inl (by simp [TaskManager.update_status, hm])
    | some t => exact Or.inr (by simp [TaskManager.update_status, hm])
  · cases hm : tm.get task_id with
    | none => exact Or.inl (by simp [TaskManager.complete, hm])
    | some t => exact Or.inr (by simp [TaskManager.complete, hm])
  · cases hm : tm.get task_id with
    | none => exact Or.inl (by simp [TaskManager.fail, hm])
    | some t => exact Or.inr (by simp [TaskManager.fail, hm])
  · cases hm : tm.get task_id with
    | none => exact Or.inl (by simp [TaskManager.update, hm])
    | some t => exact Or.inr (by simp [TaskManager.update, hm])
  · cases hm : tm.get task_id with
    | none => exact Or.inl (by simp [TaskManager.add_dependency, hm])
    | some t =>
      cases hd : tm.get dep with
      | none => exact Or.inl (by simp [TaskManager.add_dependency, hm, hd])
      | some u =>
        by_cases hmem : dep ∈ t.depends_on
        · exact Or.inl (by simp [TaskManager.add_dependency, hm, hd, hmem])
        · exact Or.inr (by simp [TaskManager.add_dependency, hm, hd, hmem])

/-- Claim C9: In the voting round's per-agent vote parsing: a response with
no parseable JSON object yields an empty vote map; every kept score is
clamped to [1,5]; votes for the voter itself (and for unknown agents) are
discarded. -/
theorem voting_round_vote_spec (parsed : Option (List (String × Int)))
    (agent_names : List String) (agent_name : String) :
    parse_vote_map none agent_names agent_name = [] ∧
    ∀ kv ∈ parse_vote_map parsed agent_names agent_name,
      1 ≤ kv.2 ∧ kv.2 ≤ 5 ∧ kv.1 ≠ agent_name ∧ kv.1 ∈ agent_names := by
  constructor
  · rfl
  · intro kv hkv
    match parsed with
    | none => simp [parse_vote_map] at hkv
    | some vote_data =>
      simp only [parse_vote_map, List.mem_map, List.mem_filter] at hkv
      obtain ⟨⟨k, v⟩, ⟨_hmem, hcond⟩, heq⟩ := hkv
      simp only [Bool.and_eq_true, bne_iff_ne, ne_eq] at hcond
      subst heq
      refine ⟨le_max_left _ _, ?_, ?_, ?_⟩
      · exact max_le (by norm_num) (min_le_left _ _)
      · exact hcond.2
      · have := hcond.1
        simpa using this

/-- Witness for C9: an empty map for an unparseable response, and the
clamp/self-vote/unknown-target filtering on one parsed response. -/
theorem voting_round_vote_spec_witness :
    parse_vote_map none ["A", "B"] "A" = [] ∧
    (1 ≤ (5 : Int) ∧ (5 : Int) ≤ 5 ∧ "B" ≠ "A" ∧
      "B" ∈ (["A", "B"] : List String)) :=
  ⟨(voting_round_vote_spec none ["A", "B"] "A").1,
   (voting_round_vote_spec (some [("B", 99), ("A", 3), ("C", 2)])
      ["A", "B"] "A").2 ("B", 5) (by decide)⟩

/-- Claim C4, counterexample:  A registry scan does not preserve the
existing status/current_task of a still-present agent: agent "X" was
active and holding task "t123" before the scan, and the rebuilt entry is
idle with no current task. -/
theorem scan_agents_wipes_liveness :
    (scan_agents capsEx [("X", agentX_active)] true [folderX]).map
        (fun kv => (kv.1, kv.2.status, kv.2.current_task)) =
      [("X", "idle", none)] ∧
    agentX_active.status = "active" ∧
    agentX_active.current_task = some "t123" := by
  refine ⟨?_, rfl, rfl⟩
  simp [scan_agents, folderX, mkAgentInfo]

/-- Claim C4, amended:  `scan_agents` ignores the previous registry map
(`self._agents.clear()`): the rebuilt map does not depend on it, and every
rebuilt entry carries status "idle" and no current task, with all other
fields derived from the folder contents via `mkAgentInfo` (role,
capabilities, bridge type and last_seen from the descriptor and state-log
mtime). -/
theorem scan_agents_rebuild (caps : List (String × (String → Bool)))
    (old old' : List (String × AgentInfo)) (base_exists : Bool)
    (folders : List AgentFolder) :
    scan_agents caps old base_exists folders =
      scan_agents caps old' base_exists folders ∧
    ∀ kv ∈ scan_agents caps old base_exists folders,
      kv.2.status = "idle" ∧ kv.2.current_task = none ∧
      ∃ f ∈ folders, f.is_dir = true ∧ ∃ txt, f.who_text = some txt ∧
        kv = (f.name, mkAgentInfo caps f txt) := by
  constructor
  · rfl
  · intro kv hkv
    cases base_exists with
    | false => simp [scan_agents] at hkv
    | true =>
      simp only [scan_agents, Bool.not_true, Bool.false_eq_true, if_false,
        List.mem_filterMap] at hkv
      obtain ⟨f, hf, hsome⟩ := hkv
      cases hdir : f.is_dir with
      | false => simp [hdir] at hsome
      | true =>
        cases hwho : f.who_text with
        | none => simp [hdir, hwho] at hsome
        | some txt =>
          simp only [hdir, hwho, Bool.not_true, Bool.false_eq_true, if_false,
            Option.some.injEq] at hsome
          refine ⟨?_, ?_, f, hf, hdir, txt, hwho, hsome.symm⟩
          · rw [← hsome]
            rfl
          · rw [← hsome]
            rfl

/-- Witness for C4's amended theorem at a concrete folder list. -/
theorem scan_agents_rebuild_witness :
    ("X", mkAgentInfo capsEx folderX whoX).2.status = "idle" ∧
    ("X", mkAgentInfo capsEx folderX whoX).2.current_task = none :=
  have h := (scan_agents_rebuild capsEx [("X", agentX_active)] [] true
      [folderX]).2 ("X", mkAgentInfo capsEx folderX whoX)
    (by simp [scan_agents, folderX])
  ⟨h.1, h.2.1⟩

/-- Claim C1, counterexample:  `add_dependency` performs no cycle detection:
with two fresh tasks "a" and "b", `add_dependency("a","b")` followed by
`add_dependency("b","a")` both return True, and the second call mutates the
graph to the cycle `a.depends_on = ["b"]`, `b.depends_on = ["a"]` — the
claim expects the second call to be rejected with `b.depends_on = []`. -/
theorem add_dependency_cycle_not_rejected :
    ((tmAB.add_dependency "a" "b" "t1").2.1.add_dependency "b" "a" "t2").1 =
      true ∧
    ((((tmAB.add_dependency "a" "b" "t1").2.1.add_dependency "b" "a"
        "t2").2.1.get "b").map Task.depends_on) = some ["a"] ∧
    ((((tmAB.add_dependency "a" "b" "t1").2.1.add_dependency "b" "a"
        "t2").2.1.get "a").map Task.depends_on) = some ["b"] := by
  decide

/-- Claim C1, amended:  `add_dependency` checks only that both tasks exist:
it appends the dependency when absent and returns True, with no cycle
check.  After `add_dependency(A,B)` and `add_dependency(B,A)`, both calls
succeed and `A.depends_on` ends with B while `B.depends_on` ends with A —
a dependency cycle is created rather than rejected. -/
theorem add_dependency_no_cycle_check (tm : TaskManager) (a b now now' : String)
    (ta tb : Task) (ha : tm.get a = some ta) (hb : tm.get b = some tb)
    (hab : a ≠ b) (hnb : b ∉ ta.depends_on) (hna : a ∉ tb.depends_on) :
    (tm.add_dependency a b now).1 = true ∧
    ((tm.add_dependency a b now).2.1.add_dependency b a now').1 = true ∧
    ((tm.add_dependency a b now).2.1.add_dependency b a now').2.1.get a =
      some { ta with depends_on := ta.depends_on ++ [b], updated_at := now } ∧
    ((tm.add_dependency a b now).2.1.add_dependency b a now').2.1.get b =
      some { tb with depends_on := tb.depends_on ++ [a],
                     updated_at := now' } := by
  have hta : ta.id = a := get_id_of_find? tm a ta ha
  have htb : tb.id = b := get_id_of_find? tm b tb hb
  set ta' : Task :=
    { ta with depends_on := ta.depends_on ++ [b], updated_at := now }
    with hta'
  set tm1 : TaskManager := { tm with tasks := replaceTask tm.tasks a ta' }
    with htm1
  have hta'id : ta'.id = a := hta
  have e1 : tm.add_dependency a b now = (true, tm1, tm1.saveOps) := by
    simp only [TaskManager.add_dependency, ha, hb]
    rw [if_neg hnb]
  have hget_b1 : tm1.get b = some tb := by
    rw [htm1]
    exact (get_replace_ne tm a b ta' hta'id (Ne.symm hab)).trans hb
  have hget_a1 : tm1.get a = some ta' := by
    rw [htm1, get_replace_eq tm a ta' hta'id, ha]
    rfl
  set tb' : Task :=
    { tb with depends_on := tb.depends_on ++ [a], updated_at := now' }
    with htb'
  set tm2 : TaskManager := { tm1 with tasks := replaceTask tm1.tasks b tb' }
    with htm2
  have htb'id : tb'.id = b := htb
  have e2 : tm1.add_dependency b a now' = (true, tm2, tm2.saveOps) := by
    simp only [TaskManager.add_dependency, hget_b1, hget_a1]
    rw [if_neg hna]
  refine ⟨by rw [e1], ?_, ?_, ?_⟩
  · rw [e1]
    show (tm1.add_dependency b a now').1 = true
    rw [e2]
  · rw [e1]
    show (tm1.add_dependency b a now').2.1.get a = some ta'
    rw [e2]
    show tm2.get a = some ta'
    rw [htm2, get_replace_ne tm1 b a tb' htb'id hab]
    exact hget_a1
  · rw [e1]
    show (tm1.add_dependency b a now').2.1.get b = some tb'
    rw [e2]
    show tm2.get b = some tb'
    rw [htm2, get_replace_eq tm1 b tb' htb'id, hget_b1]
    rfl

/-- Witness for C1's amended theorem on the concrete two-task table. -/
theorem add_dependency_no_cycle_check_witness :
    (tmAB.add_dependency "a" "b" "t1").1 = true ∧
    ((tmAB.add_dependency "a" "b" "t1").2.1.add_dependency "b" "a" "t2").1 =
      true ∧
    ((tmAB.add_dependency "a" "b" "t1").2.1.add_dependency "b" "a"
        "t2").2.1.get "a" =
      some { taskA with depends_on := taskA.depends_on ++ ["b"],
                        updated_at := "t1" } ∧
    ((tmAB.add_dependency "a" "b" "t1").2.1.add_dependency "b" "a"
        "t2").2.1.get "b" =
      some { taskB with depends_on := taskB.depends_on ++ ["a"],
                        updated_at := "t2" } :=
  add_dependency_no_cycle_check tmAB "a" "b" "t1" "t2" taskA taskB
    (by decide) (by decide) (by decide) (by decide) (by decide)

/-- Claim C3, counterexample:  A failed task moves out of its terminal
status by an operation other than retry: the dispatch route's guard only
rejects running/done tasks, so dispatching the failed task "f1" succeeds
and re-assigns it (status becomes "assigned"). -/
theorem dispatch_route_moves_failed_task :
    (dispatch_route tmF "f1" "OLLAMA_WORKER" "t1").toOption.map
        (fun r => (r.1.get "f1").map Task.status) = some (some "assigned") := by
  decide

/-- Claim C3, amended:  The retry route resets a done/failed task to
pending, clearing result, error, assigned_to and task_type, and leaves
every other task untouched; the dispatch route rejects *done* tasks and the
cancel route rejects done/failed tasks.  However terminal statuses are not
otherwise protected: dispatch accepts a *failed* task and re-assigns it
(see the counterexample), `update_status` writes any status directly, and
the update endpoint can overwrite status. -/
theorem retry_resets_terminal_task (tm : TaskManager)
    (task_id agent now : String) (t : Task)
    (hfind : tm.get task_id = some t) :
    ((t.status = "failed" ∨ t.status = "done") →
      ∃ tm' ops, retry_route_reset tm task_id now = .ok (tm', ops) ∧
        tm'.get task_id = some { t with
          status := "pending", result := none,
          error := none, assigned_to := none, task_type := none,
          updated_at := now } ∧
        ∀ j : String, j ≠ task_id → tm'.get j = tm.get j) ∧
    (t.status = "done" →
      ∃ e, dispatch_route tm task_id agent now = .error e) ∧
    ((t.status = "done" ∨ t.status = "failed") →
      ∃ e, cancel_route tm task_id now = .error e) := by
  have hid : t.id = task_id := get_id_of_find? tm task_id t hfind
  refine ⟨?_, ?_, ?_⟩
  · intro hs
    have hcond : (t.status == "failed" || t.status == "done") = true := by
      rcases hs with h | h <;> simp [h]
    set t2 : Task := { t with
      status := "pending", result := none,
      error := none, assigned_to := none, task_type := none,
      updated_at := now } with ht2
    refine ⟨{ tm with tasks := replaceTask tm.tasks task_id t2 },
      TaskManager.saveOps { tm with tasks := replaceTask tm.tasks task_id t2 },
      ?_, ?_, ?_⟩
    · simp only [retry_route_reset, hfind]
      rw [if_pos hcond]
    · rw [get_replace_eq tm task_id t2 hid, hfind]
      rfl
    · intro j hj
      exact get_replace_ne tm task_id j t2 hid hj
  · intro hs
    refine ⟨"Task already " ++ t.status, ?_⟩
    simp only [dispatch_route, hfind]
    rw [if_pos (by simp [hs])]
  · intro hs
    refine ⟨"Task already " ++ t.status, ?_⟩
    simp only [cancel_route, hfind]
    rw [if_pos (by rcases hs with h | h <;> simp [h])]

/-- Witness for C3's amended theorem on a concrete done task. -/
theorem retry_resets_terminal_task_witness :
    (∃ tm' ops, retry_route_reset tmD "d1" "t9" = .ok (tm', ops) ∧
      tm'.get "d1" = some { taskD with
        status := "pending", result := none,
        error := none, assigned_to := none, task_type := none,
        updated_at := "t9" } ∧
      ∀ j : String, j ≠ "d1" → tm'.get j = tmD.get j) ∧
    (∃ e, dispatch_route tmD "d1" "OLLAMA_WORKER" "t9" = .error e) ∧
    (∃ e, cancel_route tmD "d1" "t9" = .error e) :=
  have h := retry_resets_terminal_task tmD "d1" "OLLAMA_WORKER" "t9" taskD
    (by decide)
  ⟨h.1 (Or.inr rfl), h.2.1 rfl, h.2.2 (Or.inl rfl)⟩

/-- Claim C6:  When a `RESULT_<id>_FROM_<AGENT>.md` inbox file arrives for a
task whose status is not "running" (e.g. a cancelled task, now failed),
the inbox handler leaves the whole task table unchanged and broadcasts
nothing: the task is not completed and its result is untouched. -/
theorem inbox_late_result_ignored (tm : TaskManager)
    (name content now task_id agent : String) (t : Task)
    (hm : matchResultName name = some (task_id, agent))
    (ht : tm.get task_id = some t)
    (hs : t.status ≠ "running") :
    on_inbox_file tm name content now = (tm, []) := by
  have hnotrun : (t.status == "running") = false := by simpa using hs
  have hRstart : hasStart name.toList "RESULT_".toList = true := by
    cases hh : hasStart name.toList "RESULT_".toList with
    | true => rfl
    | false =>
      simp only [matchResultName] at hm
      rw [hh] at hm
      simp at hm
  have hheadR : name.toList.head? = some 'R' := by
    have hsplit : ("RESULT_".toList) = 'R' :: "ESULT_".toList := by decide
    rw [hsplit] at hRstart
    exact hasStart_head hRstart
  have hcodex : matchCodexName name = false := by
    cases hc : matchCodexName name with
    | false => rfl
    | true =>
      exfalso
      have h1 : hasStart name.toList "CODEX_RESULT_".toList = true := by
        have hc' := hc
        simp only [matchCodexName, Bool.and_eq_true] at hc'
        exact hc'.1
      have hsplitC : ("CODEX_RESULT_".toList) = 'C' :: "ODEX_RESULT_".toList :=
        by decide
      rw [hsplitC] at h1
      have hheadC := hasStart_head h1
      rw [hheadR] at hheadC
      exact absurd (Option.some.inj hheadC) (by decide)
  simp [on_inbox_file, hm, ht, hnotrun, hcodex]

/-- Witness for C6: a late RESULT file for the cancelled (failed) task
"f1" is ignored entirely. -/
theorem inbox_late_result_ignored_witness :
    on_inbox_file tmF "RESULT_f1_FROM_GEMINI.md" "late result" "t9" =
      (tmF, []) :=
  inbox_late_result_ignored tmF "RESULT_f1_FROM_GEMINI.md" "late result" "t9"
    "f1" "GEMINI" taskF (by decide) (by decide) (by decide)

/-- Claim C5:  `pending_queue` returns exactly the pending tasks whose
dependencies are all done, sorted by priority rank
(critical < high < medium < low) and, within equal priority, by
`created_at` ascending; every dependency of every returned task resolves
to an existing task in status done. -/
theorem pending_queue_spec (tm : TaskManager)
    (hnodup : (tm.tasks.map Task.id).Nodup) :
    (∀ t : Task, t ∈ tm.pending_queue ↔
      t ∈ tm.tasks ∧ t.status = "pending" ∧ tm.is_ready t.id = true) ∧
    List.Sorted taskKeyLE tm.pending_queue ∧
    (∀ t ∈ tm.pending_queue, ∀ d ∈ t.depends_on,
      ∃ u : Task, tm.get d = some u ∧ u.status = "done") ∧
    (priorityGet "critical" < priorityGet "high" ∧
      priorityGet "high" < priorityGet "medium" ∧
      priorityGet "medium" < priorityGet "low") := by
  have hmem : ∀ t : Task, t ∈ tm.pending_queue ↔
      t ∈ tm.tasks ∧ t.status = "pending" ∧ tm.is_ready t.id = true := by
    intro t
    unfold TaskManager.pending_queue
    rw [List.mem_insertionSort, List.mem_filter]
    simp [Bool.and_eq_true, and_assoc]
  refine ⟨hmem, ?_, ?_, by decide⟩
  · show List.Sorted taskKeyLE tm.pending_queue
    unfold TaskManager.pending_queue
    exact List.sorted_insertionSort taskKeyLE _
  · intro t ht d hd
    obtain ⟨hmem_t, _hstat, hready⟩ := (hmem t).mp ht
    have hget : tm.get t.id = some t := get_of_mem_nodup tm t hmem_t hnodup
    unfold TaskManager.is_ready at hready
    rw [hget] at hready
    have hall := List.all_eq_true.mp hready d hd
    cases hdep : tm.get d with
    | none =>
      rw [hdep] at hall
      simp at hall
    | some u =>
      rw [hdep] at hall
      exact ⟨u, rfl, by simpa using hall⟩

/-- Witness for C5 on a concrete three-task table: the ready pending task
is in the queue, and the queue is sorted. -/
theorem pending_queue_spec_witness :
    taskP1 ∈ tmQ.pending_queue ∧ List.Sorted taskKeyLE tmQ.pending_queue :=
  ⟨((pending_queue_spec tmQ (by decide)).1 taskP1).mpr
      ⟨by decide, by decide, by decide⟩,
   (pending_queue_spec tmQ (by decide)).2.1⟩

/-- Claim C7:  Classification scores each rule by its match count on
`"{title} {description}"`; when no rule matches the result is the fallback
`code_simple`; otherwise the winner is the first-declared rule attaining
the maximal score (strictly earlier entries score strictly less, all
entries score no more).  Determinism is immediate: `classify` is a pure
function of `(patterns, title, description)`. -/
theorem classify_spec (patterns : List (String × (String → Nat)))
    (title description : String) :
    ((∀ p ∈ patterns, p.2 (scoreText title description) = 0) →
      classify patterns title description = FALLBACK_TYPE) ∧
    (∀ s ∈ scoreList patterns title description,
      ∃ f : String → Nat, (s.1, f) ∈ patterns ∧
        f (scoreText title description) = s.2 ∧ 0 < s.2) ∧
    (scoreList patterns title description ≠ [] →
      ∃ (i : ℕ) (p : String × Nat),
        (scoreList patterns title description)[i]? = some p ∧
        classify patterns title description = p.1 ∧
        (∀ q ∈ scoreList patterns title description, q.2 ≤ p.2) ∧
        (∀ j : ℕ, j < i → ∀ q : String × Nat,
          (scoreList patterns title description)[j]? = some q →
            q.2 < p.2)) := by
  refine ⟨?_, ?_, ?_⟩
  · intro hz
    have h0 : scoreList patterns title description = [] := by
      unfold scoreList
      rw [List.filterMap_eq_nil_iff]
      intro p hp
      have := hz p hp
      simp [this]
    simp [classify, h0, maxByFirst]
  · intro s hs
    unfold scoreList at hs
    rw [List.mem_filterMap] at hs
    obtain ⟨p, hp, hif⟩ := hs
    by_cases h0 : 0 < p.2 (scoreText title description)
    · rw [if_pos h0] at hif
      have heq := Option.some.inj hif
      refine ⟨p.2, ?_, ?_, ?_⟩
      · rw [← heq]
        simpa using hp
      · rw [← heq]
      · rw [← heq]
        exact h0
    · rw [if_neg h0] at hif
      exact absurd hif (by simp)
  · intro hne
    obtain ⟨i, p, hget, hmax, hbound, hstrict⟩ := maxByFirst_spec _ hne
    refine ⟨i, p, hget, ?_, hbound, hstrict⟩
    simp [classify, hmax]

/-- Witness for C7: the fallback on an empty rule list, and the
first-declared tie-break on a concrete tied rule list. -/
theorem classify_spec_witness :
    classify patsW0 "t" "d" = FALLBACK_TYPE ∧
    (∃ (i : ℕ) (p : String × Nat),
      (scoreList patsTie "t" "d")[i]? = some p ∧
      classify patsTie "t" "d" = p.1 ∧
      (∀ q ∈ scoreList patsTie "t" "d", q.2 ≤ p.2) ∧
      (∀ j : ℕ, j < i → ∀ q : String × Nat,
        (scoreList patsTie "t" "d")[j]? = some q → q.2 < p.2)) :=
  ⟨(classify_spec patsW0 "t" "d").1 (by decide),
   (classify_spec patsTie "t" "d").2.2 (by decide)⟩

/-- Claim C8:  The routing confidence is 1.0 when the winning type's pattern
has at least 3 matches in the task text, 0.7 when it has 1 or 2 matches,
and 0.5 when the fallback type was used with zero matches. -/
theorem dispatch_confidence_spec (patterns : List (String × (String → Nat)))
    (title description : String) :
    (3 ≤ winning_match_count patterns title description →
      dispatch_confidence patterns title description = 1) ∧
    (winning_match_count patterns title description = 1 ∨
        winning_match_count patterns title description = 2 →
      dispatch_confidence patterns title description = 7/10) ∧
    (classify patterns title description = FALLBACK_TYPE ∧
        winning_match_count patterns title description = 0 →
      dispatch_confidence patterns title description = 1/2) := by
  refine ⟨?_, ?_, ?_⟩
  · intro h3
    simp only [dispatch_confidence]
    split_ifs with h1
    · obtain ⟨-, h0⟩ := h1
      exfalso
      omega
    · rfl
  · intro h12
    simp only [dispatch_confidence]
    split_ifs with h1 h2
    · obtain ⟨-, h0⟩ := h1
      exfalso
      rcases h12 with h | h <;> omega
    · exfalso
      rcases h12 with h | h <;> omega
    · rfl
  · intro hf
    simp only [dispatch_confidence]
    split_ifs
    rfl

/-- Witness for C8 at three concrete rule tables hitting each of the three
confidence levels. -/
theorem dispatch_confidence_spec_witness :
    dispatch_confidence patsW3 "t" "d" = 1 ∧
    dispatch_confidence patsW1 "t" "d" = 7/10 ∧
    dispatch_confidence patsW0 "t" "d" = 1/2 :=
  ⟨(dispatch_confidence_spec patsW3 "t" "d").1 (by decide),
   (dispatch_confidence_spec patsW1 "t" "d").2.1 (Or.inl (by decide)),
   (dispatch_confidence_spec patsW0 "t" "d").2.2 ⟨by decide, by decide⟩⟩

end Builder
